import Mathlib

/-!
Verification of `src/document.py`.

The Python program manipulates mutable list objects through shared
references, so the embedding uses an explicit heap: a `Store` is the
collection of live list objects, a `Ref` is the identity of one list
object, and a `Document` holds the reference stored in its `words`
attribute.  Creating a Python list literal allocates a fresh cell
(`alloc`); `Document.__init__` binds the given reference as-is;
`list.append` rewrites the referenced cell in place; `get_words`
returns the stored reference without touching the heap.
-/

/-- The identity of one Python list object. -/
abbrev Ref := Nat

/-- The heap of live list-of-string objects, indexed by `Ref`. -/
structure Store where
  cells : List (List String)
deriving DecidableEq

/-- Dereference: the current contents of list object `r`. -/
def readRef (s : Store) (r : Ref) : List String :=
  s.cells.getD r []

/-- In-place update of list object `r`. -/
def writeRef (s : Store) (r : Ref) (v : List String) : Store :=
  ⟨s.cells.set r v⟩

/-- Evaluate a Python list literal: allocate a fresh list object
holding `v` and return the new heap with the fresh reference. -/
def alloc (s : Store) (v : List String) : Store × Ref :=
  (⟨s.cells ++ [v]⟩, s.cells.length)

/-- `r` names a live list object of `s`. -/
def ValidRef (s : Store) (r : Ref) : Prop :=
  r < s.cells.length

instance (s : Store) (r : Ref) : Decidable (ValidRef s r) :=
  inferInstanceAs (Decidable (r < s.cells.length))

/-- `class Document`: `__init__` stores the given sequence reference
as-is in the attribute `words` (no copy), so `Document.mk` is the
constructor. -/
structure Document where
  words : Ref
deriving DecidableEq

/-- `add_word`: `self.words.append(word)` mutates the referenced list
object in place. -/
def Document.add_word (s : Store) (d : Document) (w : String) : Store :=
  writeRef s d.words (readRef s d.words ++ [w])

/-- `get_words`: `return self.words` returns the stored reference,
leaving the heap untouched. -/
def Document.get_words (s : Store) (d : Document) : Store × Ref :=
  (s, d.words)

/-- One observable operation on a document. -/
inductive Op where
  | add : String → Op
  | get : Op
deriving DecidableEq

/-- Run one operation against the heap, through document `d`. -/
def runOp (s : Store) (d : Document) : Op → Store
  | Op.add w => Document.add_word s d w
  | Op.get => (Document.get_words s d).1

/-- Run a sequence of operations, left to right. -/
def runOps (s : Store) (d : Document) (ops : List Op) : Store :=
  ops.foldl (fun t op => runOp t d op) s

/-- The words appended by a sequence of operations, in call order. -/
def addedWords : List Op → List String
  | [] => []
  | Op.add w :: rest => w :: addedWords rest
  | Op.get :: rest => addedWords rest

/-- Call `add_word` once for each element of `ws`, in order. -/
def addWords (s : Store) (d : Document) (ws : List String) : Store :=
  ws.foldl (fun t w => Document.add_word t d w) s

/-- `main`: `words = ["Hello"]; d = Document(words);
d2 = Document(d.get_words()); d2.add_word("world")`, starting from an
empty heap.  It takes no arguments and returns the final heap. -/
def main_run : Store :=
  let s0 : Store := ⟨[]⟩
  let p := alloc s0 ["Hello"]
  let d : Document := ⟨p.2⟩
  let q := Document.get_words p.1 d
  let d2 : Document := ⟨q.2⟩
  Document.add_word q.1 d2 "world"

/-! ### Heap lemmas -/

theorem getD_concat_length (xs : List (List String)) (v : List String) :
    (xs ++ [v]).getD xs.length [] = v := by
  induction xs with
  | nil => rfl
  | cons x xs ih => simp [ih]

theorem getD_set_self (xs : List (List String)) (i : Nat) (v : List String)
    (h : i < xs.length) : (xs.set i v).getD i [] = v := by
  induction xs generalizing i with
  | nil => simp at h
  | cons x xs ih =>
    cases i with
    | zero => rfl
    | succ j => simpa using ih j (Nat.lt_of_succ_lt_succ h)

theorem readRef_alloc (s : Store) (v : List String) :
    readRef (alloc s v).1 (alloc s v).2 = v :=
  getD_concat_length s.cells v

theorem length_writeRef (s : Store) (r : Ref) (v : List String) :
    (writeRef s r v).cells.length = s.cells.length :=
  List.length_set s.cells r v

theorem readRef_writeRef_self (s : Store) (r : Ref) (v : List String)
    (h : ValidRef s r) : readRef (writeRef s r v) r = v :=
  getD_set_self s.cells r v h

theorem validRef_alloc (s : Store) (v : List String) :
    ValidRef (alloc s v).1 (alloc s v).2 := by
  show s.cells.length < (s.cells ++ [v]).length
  simp

theorem validRef_add_word (s : Store) (d : Document) (w : String)
    (r : Ref) (h : ValidRef s r) : ValidRef (Document.add_word s d w) r := by
  show r < (writeRef s d.words _).cells.length
  rw [length_writeRef]
  exact h

theorem readRef_add_word_self (s : Store) (d : Document) (w : String)
    (h : ValidRef s d.words) :
    readRef (Document.add_word s d w) d.words = readRef s d.words ++ [w] :=
  readRef_writeRef_self s d.words _ h

theorem readRef_addWords (s : Store) (d : Document) (ws : List String)
    (h : ValidRef s d.words) :
    readRef (addWords s d ws) d.words = readRef s d.words ++ ws := by
  induction ws generalizing s with
  | nil => simp [addWords]
  | cons w ws ih =>
    show readRef (addWords (Document.add_word s d w) d ws) d.words = _
    rw [ih (Document.add_word s d w) (validRef_add_word s d w d.words h),
      readRef_add_word_self s d w h]
    simp

theorem readRef_runOps (s : Store) (d : Document) (ops : List Op)
    (h : ValidRef s d.words) :
    readRef (runOps s d ops) d.words = readRef s d.words ++ addedWords ops := by
  induction ops generalizing s with
  | nil => simp [runOps, addedWords]
  | cons op ops ih =>
    cases op with
    | add w =>
      show readRef (runOps (Document.add_word s d w) d ops) d.words = _
      rw [ih (Document.add_word s d w) (validRef_add_word s d w d.words h),
        readRef_add_word_self s d w h, addedWords]
      simp
    | get =>
      show readRef (runOps s d ops) d.words = _
      rw [ih s h, addedWords]

/-! ### Claim theorems -/

/-- Claim C1: for every heap, every initial sequence `S` and every word
`w`, constructing a Document from a fresh list holding `S`, calling
`add_word w`, then reading the reference returned by `get_words` yields
`S` followed by `w`, in that order. -/
theorem c1_add_word_then_get_words (s0 : Store) (S : List String) (w : String) :
    readRef
      (Document.add_word (alloc s0 S).1 ⟨(alloc s0 S).2⟩ w)
      (Document.get_words (Document.add_word (alloc s0 S).1 ⟨(alloc s0 S).2⟩ w)
        ⟨(alloc s0 S).2⟩).2
      = S ++ [w] :=
  (readRef_add_word_self (alloc s0 S).1 ⟨(alloc s0 S).2⟩ w
      (validRef_alloc s0 S)).trans
    (congrArg (fun l => l ++ [w]) (readRef_alloc s0 S))

/-- Claim C2: after any sequence of `add_word`/`get_words` operations on
a Document constructed from a fresh list holding `S`, the referenced
`words` list equals exactly `S` followed by the appended words, in call
order; each operation preserves the invariant. -/
theorem c2_words_invariant (s0 : Store) (S : List String) (ops : List Op) :
    readRef (runOps (alloc s0 S).1 ⟨(alloc s0 S).2⟩ ops) (alloc s0 S).2
      = S ++ addedWords ops :=
  (readRef_runOps (alloc s0 S).1 ⟨(alloc s0 S).2⟩ ops
      (validRef_alloc s0 S)).trans
    (congrArg (fun l => l ++ addedWords ops) (readRef_alloc s0 S))

/-- Claim C3: a Document constructed from another Document's
`get_words` result stores the very same reference, so a word appended
through the second Document is visible when reading through the first;
the witness instantiates the `["Hello"]` / `"world"` scenario. -/
theorem c3_shared_reference (s : Store) (d1 : Document) (w : String)
    (h : ValidRef s d1.words) :
    (⟨(Document.get_words s d1).2⟩ : Document).words = d1.words ∧
    readRef (Document.add_word s ⟨(Document.get_words s d1).2⟩ w) d1.words
      = readRef s d1.words ++ [w] :=
  ⟨rfl, readRef_add_word_self s ⟨(Document.get_words s d1).2⟩ w h⟩

/-- Witness for C3 at the demonstration scenario: `d1` built from a
fresh `["Hello"]`, `d2` built from `d1.get_words`, `d2.add_word "world"`
makes `"world"` visible through `d1`. -/
theorem c3_shared_reference_witness :
    ValidRef (alloc (Store.mk []) ["Hello"]).1
      (⟨(alloc (Store.mk []) ["Hello"]).2⟩ : Document).words ∧
    readRef
      (Document.add_word (alloc (Store.mk []) ["Hello"]).1
        ⟨(Document.get_words (alloc (Store.mk []) ["Hello"]).1
          ⟨(alloc (Store.mk []) ["Hello"]).2⟩).2⟩
        "world")
      (⟨(alloc (Store.mk []) ["Hello"]).2⟩ : Document).words
      = ["Hello", "world"] :=
  ⟨by decide,
    ((c3_shared_reference (alloc (Store.mk []) ["Hello"]).1
      ⟨(alloc (Store.mk []) ["Hello"]).2⟩ "world" (by decide)).2).trans (by decide)⟩

/-- Claim C4: construction stores the given sequence as-is: on a
Document freshly constructed from a list holding `S`, `get_words`
returns that very reference, its contents are `S` unchanged, and the
empty-sequence case returns the empty sequence. -/
theorem c4_construct_stores_as_is (s0 : Store) (S : List String) :
    (Document.get_words (alloc s0 S).1 ⟨(alloc s0 S).2⟩).2 = (alloc s0 S).2 ∧
    readRef (alloc s0 S).1
      (Document.get_words (alloc s0 S).1 ⟨(alloc s0 S).2⟩).2 = S ∧
    readRef (alloc s0 []).1
      (Document.get_words (alloc s0 []).1 ⟨(alloc s0 []).2⟩).2 = [] :=
  ⟨rfl, readRef_alloc s0 S, readRef_alloc s0 []⟩

/-- Claim C5: calling `add_word` once for each element of `ws` appends
exactly those elements in call order, and the length of the referenced
list grows by exactly `ws.length`. -/
theorem c5_n_appends (s : Store) (d : Document) (ws : List String)
    (h : ValidRef s d.words) :
    readRef (addWords s d ws) d.words = readRef s d.words ++ ws ∧
    (readRef (addWords s d ws) d.words).length
      = (readRef s d.words).length + ws.length := by
  have h1 := readRef_addWords s d ws h
  exact ⟨h1, by rw [h1]; simp⟩

/-- Witness for C5: two appends onto a document holding `["a"]`. -/
theorem c5_n_appends_witness :
    ValidRef (Store.mk [["a"]]) (Document.mk 0).words ∧
    (readRef (addWords (Store.mk [["a"]]) (Document.mk 0) ["b", "c"])
        (Document.mk 0).words
      = readRef (Store.mk [["a"]]) (Document.mk 0).words ++ ["b", "c"] ∧
    (readRef (addWords (Store.mk [["a"]]) (Document.mk 0) ["b", "c"])
        (Document.mk 0).words).length
      = (readRef (Store.mk [["a"]]) (Document.mk 0).words).length
        + (["b", "c"] : List String).length) :=
  ⟨by decide, c5_n_appends (Store.mk [["a"]]) (Document.mk 0) ["b", "c"] (by decide)⟩

/-- Claim C6: all three operations are total over their input types:
for every heap, document, initial sequence (the empty one included) and
word (the empty string included) they produce a result, with no
validation, rejection or failure path — each returns a plain value, not
an optional one. -/
theorem c6_operations_total (s0 : Store) (S : List String) (s : Store)
    (d : Document) (w : String) :
    (∃ p : Store × Ref, alloc s0 S = p) ∧
    (∃ t : Store, Document.add_word s d w = t) ∧
    (∃ q : Store × Ref, Document.get_words s d = q) :=
  ⟨⟨_, rfl⟩, ⟨_, rfl⟩, ⟨_, rfl⟩⟩

/-- Claim C7: the demonstration entry point, run from the empty heap
with no arguments, allocates `["Hello"]` for the first Document, builds
the second from the first's `get_words`, appends `"world"` through the
second, and terminates with the single shared list holding
`["Hello", "world"]`. -/
theorem c7_main_run :
    main_run = Store.mk [["Hello", "world"]] ∧
    readRef main_run 0 = ["Hello", "world"] :=
  ⟨rfl, rfl⟩

/-- Claim C8: `get_words` has no side effect: it returns the heap
unchanged, two consecutive calls return equal references, and the
referenced contents are exactly the stored `words`. -/
theorem c8_get_words_no_side_effect (s : Store) (d : Document) :
    (Document.get_words s d).1 = s ∧
    (Document.get_words s d).2
      = (Document.get_words (Document.get_words s d).1 d).2 ∧
    readRef (Document.get_words s d).1 (Document.get_words s d).2
      = readRef s d.words :=
  ⟨rfl, rfl, rfl⟩

/-- Claim C9: all operations are deterministic: from equal heaps,
equal documents and equal arguments, `alloc`, `add_word` and
`get_words` produce equal results. -/
theorem c9_deterministic (s s' : Store) (d d' : Document) (w w' : String)
    (S S' : List String) (hs : s = s') (hd : d = d') (hw : w = w')
    (hS : S = S') :
    alloc s S = alloc s' S' ∧
    Document.add_word s d w = Document.add_word s' d' w' ∧
    Document.get_words s d = Document.get_words s' d' := by
  subst hs; subst hd; subst hw; subst hS
  exact ⟨rfl, rfl, rfl⟩

/-- Witness for C9 at a concrete heap, document and arguments. -/
theorem c9_deterministic_witness :
    alloc (Store.mk [["a"]]) ["x"] = alloc (Store.mk [["a"]]) ["x"] ∧
    Document.add_word (Store.mk [["a"]]) (Document.mk 0) "b"
      = Document.add_word (Store.mk [["a"]]) (Document.mk 0) "b" ∧
    Document.get_words (Store.mk [["a"]]) (Document.mk 0)
      = Document.get_words (Store.mk [["a"]]) (Document.mk 0) :=
  c9_deterministic (Store.mk [["a"]]) (Store.mk [["a"]]) (Document.mk 0)
    (Document.mk 0) "b" "b" ["x"] ["x"] rfl rfl rfl rfl
